import Mathlib

/-!
Verification of the IB data-feed reconciliation state machine
(`backtrader/feeds/ibdata.py`), shallowly embedded in Lean.

The embedding models `IBData._load`, `IBData._load_rtbar` and
`IBData._load_rtvolume`.  Timestamps are modelled as integers: `date2num`
is a strictly monotone injection from datetimes to floats, so the order
and equality facts proved here transfer; `date2num`/`num2date` become the
identity on this representation.

The message channels (`qlive`, `qhist`) are modelled as lists of messages
(head = next message to be delivered); a bounded-timeout `get` on an empty
live queue is the timeout, a blocking `get` on an empty historical queue
blocks forever (`LoadResult.blocked`).  The gateway collaborator
(`self.ib`) is modelled by fields of the state: `reconnectOk` is the result
of `ib.reconnect(resub=True)`, `resubQueue` the channel returned by
`reqdata`'s resubscription, and `histSource` the channel returned by
`ib.reqHistoricalDataEx` (whose request windows are recorded in
`histRequests`).
-/

namespace IBFeed

/-- States of the finite state machine of `_load`
(`_ST_FROM, _ST_START, _ST_LIVE, _ST_HISTORBACK`). -/
inductive IBState where
  | stFrom
  | stStart
  | stLive
  | stHistorback
deriving DecidableEq, Repr

/-- Status notifications sent with `put_notification`
(`CONNECTED`, `CONNBROKEN`, `DELAYED`, `DISCONNECTED`, `LIVE`,
`NOTSUBSCRIBED`, `UNKNOWN(code)`). -/
inductive Notif where
  | connected
  | connbroken
  | delayed
  | disconnected
  | live
  | notsubscribed
  | unknown (code : Int)
deriving DecidableEq, Repr

/-- A delivered OHLCV bar of the output series (`self.lines`), with its
timestamp `dt` (the value written to `self.lines.datetime[0]`). -/
structure BTBar where
  dt : Int
  open_ : Int
  high : Int
  low : Int
  close : Int
  volume : Int
  openinterest : Int
deriving DecidableEq, Repr

/-- A structured live data message: a Python object whose attributes are
read by `_load_rtvolume` (`.datetime`, `.price`, `.size`) or by
`_load_rtbar` (`.time`, `.open`, `.high`, `.low`, `.close`, `.volume`),
the choice being made by the `_usertvol` flag of the feed, not by the
message.  Mirroring duck typing, one record carries both attribute
groups. -/
structure LiveData where
  datetime : Int
  price : Int
  size : Int
  time : Int
  open_ : Int
  high : Int
  low : Int
  close : Int
  volume : Int
deriving DecidableEq, Repr

/-- A message on the live channel `qlive`: the null sentinel (connection
lost), a bare integer status code, or a structured data message. -/
inductive LiveMsg where
  | null
  | code (c : Int)
  | data (d : LiveData)
deriving DecidableEq, Repr

/-- A message on the historical channel `qhist`: the null sentinel, a bare
integer status code, or a bar whose `.date` attribute is `none` for the
end-of-stream sentinel. -/
inductive HistMsg where
  | null
  | code (c : Int)
  | data (date : Option Int) (open_ high low close volume : Int)
deriving DecidableEq, Repr

/-- The feed state visible to `_load`, together with the model of the
gateway collaborator.  `contract` is `self.contract is not None`;
`storedmsg` is the single pending live message kept in `self._storedmsg`
under the key `None` (only structured data messages are ever stored
there); `fromdate`/`todate` are `none` for the unbounded defaults
`-inf`/`inf`; `backfillFrom` is the auxiliary seed source `backfill_from`
(its remaining bars). -/
structure Feed where
  contract : Bool
  state : IBState
  statelivereconn : Bool
  storedmsg : Option LiveData
  qlive : List LiveMsg
  qhist : List HistMsg
  lines : List BTBar
  laststatus : Option Notif
  notifs : List Notif
  histRequests : List (Option Int × Option Int)
  historical : Bool
  backfill : Bool
  backfill_start : Bool
  latethrough : Bool
  usertvol : Bool
  fromdate : Option Int
  todate : Option Int
  backfillFrom : List BTBar
  reconnectOk : Bool
  resubQueue : List LiveMsg
  histSource : List HistMsg
deriving DecidableEq, Repr

/-- Modelled from the spec: the Notification Sink records the ordered
sequence of emitted status events, and the framework's
`put_notification` (in the base feed class, outside these sources) also
keeps the most recent event as `self._laststatus`, which `_load` consults
to avoid emitting `LIVE` or `DELAYED` twice in a row. -/
def put_notification (f : Feed) (n : Notif) : Feed :=
  { f with notifs := f.notifs ++ [n], laststatus := some n }

/-- `self.lines.datetime[-1]`: the timestamp of the last delivered bar,
`none` when no bar was delivered yet (the initial `NaN`, against which
every `<=` comparison is false). -/
def lastdt (f : Feed) : Option Int :=
  f.lines.getLast?.map BTBar.dt

/-- `len(self)` during `_load`: the framework forwards the new empty slot
before calling `_load`, so the length counts the delivered bars plus one
(the source comments this at the backfill window: `len == 1 ... forwarded
for the 1st time`). -/
def numBars (f : Feed) : Nat :=
  f.lines.length + 1

/-- The rejection test shared by `_load_rtbar` and `_load_rtvolume`:
`dt <= self.lines.datetime[-1] and not self.p.latethrough`. -/
def lateReject (f : Feed) (dt : Int) : Bool :=
  (match lastdt f with
   | some d => decide (dt ≤ d)
   | none => false) && !f.latethrough

/-- Writing the current bar slot and returning `True` from the loader:
the framework keeps the written slot, extending the output series. -/
def appendBar (f : Feed) (b : BTBar) : Feed :=
  { f with lines := f.lines ++ [b] }

/-- `IBData._load_rtbar`: deliver a complete bar, `dt` being
`date2num(rtbar.time)` for a live real-time bar and `date2num(rtbar.date)`
for a historical bar (`hist=True`). -/
def load_rtbar (f : Feed) (dt o h l c v : Int) : Bool × Feed :=
  if lateReject f dt then
    (false, f)
  else
    (true, appendBar f ⟨dt, o, h, l, c, v, 0⟩)

/-- `IBData._load_rtvolume`: a single tick fills the whole bar. -/
def load_rtvolume (f : Feed) (d : LiveData) : Bool × Feed :=
  if lateReject f d.datetime then
    (false, f)
  else
    (true, appendBar f ⟨d.datetime, d.price, d.price, d.price, d.price, d.size, 0⟩)

/-- `IBData.reqdata` as called from the `-1101` branch: the contract is
known to be present there, so the live queue is replaced by the channel of
the renewed market-data subscription. -/
def reqdata (f : Feed) : Feed :=
  { f with qlive := f.resubQueue }

/-- `ib.reqHistoricalDataEx(contract, dtend, dtbegin, ...)`: record the
requested window and install the gateway's reply channel as `qhist`. -/
def reqHistoricalDataEx (f : Feed) (dtend dtbegin : Option Int) : Feed :=
  { f with histRequests := f.histRequests ++ [(dtend, dtbegin)],
           qhist := f.histSource }

/-- The `begin` of the backfill window computed in the Live
pending-backfill branch: the last delivered bar's timestamp when
`len(self) > 1`, else the `fromdate` floor when one is set, else `none`
(maximum possible history in one request). -/
def backfillBegin (f : Feed) : Option Int :=
  if numBars f > 1 then
    lastdt f
  else
    match f.fromdate with
    | some fd => some fd
    | none => none

/-- Result of one `_load` call: `success`/`failure` are Python
`True`/`False`, `noData` is the `None` returned on a live-queue timeout,
`blocked` models the unbounded `qhist.get()` on a channel that never
delivers, and `outOfFuel` is the artifact of bounding the `while True`
loop by fuel. -/
inductive LoadResult where
  | success
  | failure
  | noData
  | blocked
  | outOfFuel
deriving DecidableEq, Repr

/-- Outcome of one iteration of the `while True` body: either the call
returns (`done`) or the loop continues with an updated state (`again`). -/
inductive Step where
  | done (r : LoadResult) (f : Feed)
  | again (f : Feed)
deriving DecidableEq, Repr

/-- The feed state carried by a `Step`. -/
def Step.feed : Step → Feed
  | .done _ f => f
  | .again f => f

/-- The `_ST_LIVE` handling of one message `msg` (already taken from the
stored slot or popped from `qlive`; `f` is the state after that pop). -/
def liveStep (f : Feed) (msg : LiveMsg) : Step :=
  match msg with
  | .null =>
    let f1 := put_notification f .connbroken
    if f1.reconnectOk then
      .again { f1 with statelivereconn := f1.backfill }
    else
      .done .failure (put_notification f1 .disconnected)
  | .code c =>
    if c = -354 then
      .done .failure (put_notification f .notsubscribed)
    else if c = -1100 then
      .again { f with statelivereconn := f.backfill }
    else if c = -1102 then
      .again (if f.statelivereconn then f
              else { f with statelivereconn := f.backfill })
    else if c = -1101 then
      .again (if f.statelivereconn then f
              else reqdata { f with statelivereconn := f.backfill })
    else
      .again (put_notification f (.unknown c))
  | .data d =>
    if f.statelivereconn = false then
      let f1 := if f.laststatus ≠ some .live ∧ f.qlive.length ≤ 1 then
                  put_notification f .live
                else f
      let r := if f1.usertvol then
                 load_rtvolume f1 d
               else
                 load_rtbar f1 d.time d.open_ d.high d.low d.close d.volume
      if r.1 then .done .success r.2 else .again r.2
    else
      let f1 := { f with storedmsg := some d }
      let f2 := if f1.laststatus ≠ some .delayed then
                  put_notification f1 .delayed
                else f1
      let dtend : Int := if f2.usertvol then d.datetime else d.time
      let f3 := reqHistoricalDataEx f2 (some dtend) (backfillBegin f2)
      .again { f3 with state := .stHistorback, statelivereconn := false }

/-- One iteration of the `while True` body of `IBData._load`. -/
def loadStep (f : Feed) : Step :=
  match f.state with
  | .stLive =>
    match f.storedmsg with
    | some d => liveStep { f with storedmsg := none } (.data d)
    | none =>
      match f.qlive with
      | [] => .done .noData f
      | m :: rest => liveStep { f with qlive := rest } m
  | .stHistorback =>
    match f.qhist with
    | [] => .done .blocked f
    | m :: rest =>
      let f1 := { f with qhist := rest }
      match m with
      | .null => .done .failure (put_notification f1 .disconnected)
      | .code c =>
        if c = -354 then
          .done .failure (put_notification f1 .notsubscribed)
        else if c = -420 then
          .done .failure (put_notification f1 .notsubscribed)
        else
          .again (put_notification f1 (.unknown c))
      | .data dateOpt o h l c v =>
        match dateOpt with
        | some dt =>
          let r := load_rtbar f1 dt o h l c v
          if r.1 then .done .success r.2 else .again r.2
        | none =>
          if f1.historical then
            .done .failure (put_notification f1 .disconnected)
          else
            .again { f1 with state := .stLive }
  | .stStart =>
    if f.historical then
      let f1 := put_notification f .delayed
      let f2 := reqHistoricalDataEx f1 f1.todate f1.fromdate
      .again { f2 with state := .stHistorback }
    else if f.reconnectOk then
      let f1 := { f with statelivereconn := f.backfill_start }
      let f2 := if f1.backfill_start = false then
                  put_notification f1 .delayed
                else f1
      .again { f2 with state := .stLive }
    else
      .done .failure (put_notification f .disconnected)
  | .stFrom =>
    match f.backfillFrom with
    | [] => .again { f with state := .stStart }
    | b :: rest =>
      .done .success { f with backfillFrom := rest, lines := f.lines ++ [b] }

/-- The `while True` loop of `_load`, bounded by fuel. -/
def loadLoop : Nat → Feed → LoadResult × Feed
  | 0, f => (.outOfFuel, f)
  | n + 1, f =>
    match loadStep f with
    | .done r f2 => (r, f2)
    | .again f2 => loadLoop n f2

/-- `IBData._load`: return `False` at once when no contract was resolved,
otherwise run the loop. -/
def load (fuel : Nat) (f : Feed) : LoadResult × Feed :=
  if f.contract then loadLoop fuel f else (.failure, f)

/-- Strict monotonicity of the timestamps of the output series. -/
def linesSorted (f : Feed) : Prop :=
  List.Chain' (· < ·) (f.lines.map BTBar.dt)

instance (f : Feed) : Decidable (linesSorted f) := by
  unfold linesSorted; infer_instance

/-- A baseline live feed state used by the concrete scenarios: contract
resolved, Live state, all queues empty, default parameters. -/
def feed0 : Feed :=
  { contract := true, state := .stLive, statelivereconn := false,
    storedmsg := none, qlive := [], qhist := [], lines := [],
    laststatus := none, notifs := [], histRequests := [],
    historical := false, backfill := true, backfill_start := true,
    latethrough := false, usertvol := true, fromdate := none, todate := none,
    backfillFrom := [], reconnectOk := true, resubQueue := [], histSource := [] }

/-- A tick-shaped live data message with timestamp `t`, price `p`,
size `s`. -/
def tickMsg (t p s : Int) : LiveData :=
  { datetime := t, price := p, size := s, time := t,
    open_ := p, high := p, low := p, close := p, volume := s }

/-- A bar of the output series with timestamp `t` and zero prices. -/
def bar0 (t : Int) : BTBar :=
  ⟨t, 0, 0, 0, 0, 0, 0⟩

section Helpers

variable (f : Feed)

@[simp] lemma put_notification_lines (n : Notif) :
    (put_notification f n).lines = f.lines := rfl

@[simp] lemma put_notification_state (n : Notif) :
    (put_notification f n).state = f.state := rfl

@[simp] lemma put_notification_latethrough (n : Notif) :
    (put_notification f n).latethrough = f.latethrough := rfl

@[simp] lemma put_notification_qlive (n : Notif) :
    (put_notification f n).qlive = f.qlive := rfl

@[simp] lemma put_notification_storedmsg (n : Notif) :
    (put_notification f n).storedmsg = f.storedmsg := rfl

@[simp] lemma put_notification_notifs (n : Notif) :
    (put_notification f n).notifs = f.notifs ++ [n] := rfl

@[simp] lemma reqdata_lines : (reqdata f).lines = f.lines := rfl

@[simp] lemma reqdata_state : (reqdata f).state = f.state := rfl

@[simp] lemma reqdata_latethrough : (reqdata f).latethrough = f.latethrough := rfl

@[simp] lemma reqHistoricalDataEx_lines (a b : Option Int) :
    (reqHistoricalDataEx f a b).lines = f.lines := rfl

@[simp] lemma reqHistoricalDataEx_state (a b : Option Int) :
    (reqHistoricalDataEx f a b).state = f.state := rfl

@[simp] lemma reqHistoricalDataEx_latethrough (a b : Option Int) :
    (reqHistoricalDataEx f a b).latethrough = f.latethrough := rfl

@[simp] lemma reqHistoricalDataEx_qlive (a b : Option Int) :
    (reqHistoricalDataEx f a b).qlive = f.qlive := rfl

@[simp] lemma reqHistoricalDataEx_storedmsg (a b : Option Int) :
    (reqHistoricalDataEx f a b).storedmsg = f.storedmsg := rfl

@[simp] lemma reqHistoricalDataEx_notifs (a b : Option Int) :
    (reqHistoricalDataEx f a b).notifs = f.notifs := rfl

@[simp] lemma appendBar_state (b : BTBar) : (appendBar f b).state = f.state := rfl

@[simp] lemma appendBar_latethrough (b : BTBar) :
    (appendBar f b).latethrough = f.latethrough := rfl

@[simp] lemma appendBar_qlive (b : BTBar) : (appendBar f b).qlive = f.qlive := rfl

@[simp] lemma appendBar_notifs (b : BTBar) : (appendBar f b).notifs = f.notifs := rfl

/-- With `latethrough` unset, a candidate surviving the rejection test is
strictly later than the last delivered bar. -/
lemma accept_gt (dt : Int) (hl : f.latethrough = false)
    (hr : lateReject f dt = false) : ∀ d, lastdt f = some d → d < dt := by
  intro d hd
  unfold lateReject at hr
  rw [hd, hl] at hr
  simpa using hr

/-- A candidate earlier than nothing is never rejected. -/
lemma lateReject_of_none (dt : Int) (h : lastdt f = none) :
    lateReject f dt = false := by
  unfold lateReject
  rw [h]
  simp

/-- A candidate strictly later than the last delivered bar is never
rejected. -/
lemma lateReject_of_lt (dt d : Int) (h : lastdt f = some d) (hlt : d < dt) :
    lateReject f dt = false := by
  unfold lateReject
  rw [h]
  simp [not_le.mpr hlt]

/-- Accepting a non-rejected bar keeps the output series strictly
increasing. -/
lemma linesSorted_appendBar (b : BTBar) (hl : f.latethrough = false)
    (hr : lateReject f b.dt = false) (hs : linesSorted f) :
    linesSorted (appendBar f b) := by
  unfold linesSorted appendBar at *
  simp only [List.map_append, List.map_cons, List.map_nil]
  rw [List.chain'_append]
  refine ⟨hs, List.chain'_singleton _, ?_⟩
  intro x hx y hy
  simp only [List.head?_cons, Option.mem_def, Option.some.injEq] at hy
  subst hy
  have hx' : (f.lines.map BTBar.dt).getLast? = some x := hx
  rw [List.getLast?_map] at hx'
  apply accept_gt f b.dt hl hr
  unfold lastdt
  obtain ⟨a, ha, hax⟩ := Option.map_eq_some'.mp hx'
  rw [ha]
  simp [hax]

end Helpers


section Inv

@[simp] lemma Step_feed_done (r : LoadResult) (f : Feed) :
    (Step.done r f).feed = f := rfl

@[simp] lemma Step_feed_again (f : Feed) :
    (Step.again f).feed = f := rfl

@[simp] lemma load_rtbar_state (f : Feed) (dt o h l c v : Int) :
    (load_rtbar f dt o h l c v).2.state = f.state := by
  unfold load_rtbar; split <;> rfl

@[simp] lemma load_rtbar_latethrough (f : Feed) (dt o h l c v : Int) :
    (load_rtbar f dt o h l c v).2.latethrough = f.latethrough := by
  unfold load_rtbar; split <;> rfl

@[simp] lemma load_rtbar_qlive (f : Feed) (dt o h l c v : Int) :
    (load_rtbar f dt o h l c v).2.qlive = f.qlive := by
  unfold load_rtbar; split <;> rfl

@[simp] lemma load_rtbar_storedmsg (f : Feed) (dt o h l c v : Int) :
    (load_rtbar f dt o h l c v).2.storedmsg = f.storedmsg := by
  unfold load_rtbar; split <;> rfl

@[simp] lemma load_rtvolume_state (f : Feed) (d : LiveData) :
    (load_rtvolume f d).2.state = f.state := by
  unfold load_rtvolume; split <;> rfl

@[simp] lemma load_rtvolume_latethrough (f : Feed) (d : LiveData) :
    (load_rtvolume f d).2.latethrough = f.latethrough := by
  unfold load_rtvolume; split <;> rfl

@[simp] lemma load_rtvolume_qlive (f : Feed) (d : LiveData) :
    (load_rtvolume f d).2.qlive = f.qlive := by
  unfold load_rtvolume; split <;> rfl

@[simp] lemma load_rtvolume_storedmsg (f : Feed) (d : LiveData) :
    (load_rtvolume f d).2.storedmsg = f.storedmsg := by
  unfold load_rtvolume; split <;> rfl

lemma linesSorted_load_rtbar (f : Feed) (dt o h l c v : Int)
    (hl : f.latethrough = false) (hs : linesSorted f) :
    linesSorted (load_rtbar f dt o h l c v).2 := by
  by_cases h : lateReject f dt = true
  · simpa [load_rtbar, h] using hs
  · have h' : lateReject f dt = false := by simpa using h
    simp only [load_rtbar, h', Bool.false_eq_true, if_false]
    exact linesSorted_appendBar f _ hl h' hs

lemma linesSorted_load_rtvolume (f : Feed) (d : LiveData)
    (hl : f.latethrough = false) (hs : linesSorted f) :
    linesSorted (load_rtvolume f d).2 := by
  by_cases h : lateReject f d.datetime = true
  · simpa [load_rtvolume, h] using hs
  · have h' : lateReject f d.datetime = false := by simpa using h
    simp only [load_rtvolume, h', Bool.false_eq_true, if_false]
    exact linesSorted_appendBar f _ hl h' hs

/-- `_ST_LIVE` message handling preserves: `latethrough` unset,
not being in the seed-replay state, and monotonicity of the series. -/
lemma liveStep_inv (f : Feed) (m : LiveMsg) (hl : f.latethrough = false)
    (hf : f.state ≠ .stFrom) (hs : linesSorted f) :
    (liveStep f m).feed.latethrough = false ∧
    (liveStep f m).feed.state ≠ .stFrom ∧
    linesSorted (liveStep f m).feed := by
  cases m with
  | null =>
    unfold liveStep
    dsimp only
    split <;>
      exact ⟨by simpa using hl, by simpa using hf, by simpa [linesSorted] using hs⟩
  | code c =>
    unfold liveStep
    dsimp only
    repeat' split
    all_goals
      exact ⟨by simpa [reqdata] using hl, by simpa [reqdata] using hf,
        by simpa [linesSorted, reqdata] using hs⟩
  | data d =>
    unfold liveStep
    dsimp only
    split
    · -- assembler path
      repeat' split
      all_goals
        first
        | exact ⟨by simp [hl], by simp only [Step_feed_done, Step_feed_again,
              load_rtvolume_state, load_rtbar_state, put_notification_state]; exact hf,
            linesSorted_load_rtvolume _ d hl hs⟩
        | exact ⟨by simp [hl], by simp only [Step_feed_done, Step_feed_again,
              load_rtvolume_state, load_rtbar_state, put_notification_state]; exact hf,
            linesSorted_load_rtbar _ _ _ _ _ _ _ hl hs⟩
    · -- pending-backfill path
      repeat' split
      all_goals
        exact ⟨by simp [hl, reqHistoricalDataEx, put_notification],
          by simp,
          by simpa [linesSorted, reqHistoricalDataEx, put_notification] using hs⟩

/-- One iteration of the `_load` loop preserves: `latethrough` unset,
not being in the seed-replay state, and monotonicity of the series. -/
lemma loadStep_inv (f : Feed) (hl : f.latethrough = false)
    (hf : f.state ≠ .stFrom) (hs : linesSorted f) :
    (loadStep f).feed.latethrough = false ∧
    (loadStep f).feed.state ≠ .stFrom ∧
    linesSorted (loadStep f).feed := by
  unfold loadStep
  cases hfs : f.state
  case stFrom => exact absurd hfs hf
  case stStart =>
    dsimp only
    repeat' split
    all_goals
      exact ⟨by simp [hl, reqHistoricalDataEx, put_notification],
        by simp [hfs],
        by simpa [linesSorted, reqHistoricalDataEx, put_notification] using hs⟩
  case stHistorback =>
    dsimp only
    cases hq : f.qhist with
    | nil => exact ⟨hl, by simp [hfs], hs⟩
    | cons m rest =>
      cases m with
      | null =>
        exact ⟨by simp [hl], by simp [hfs], by simpa [linesSorted] using hs⟩
      | code c =>
        dsimp only
        repeat' split
        all_goals
          exact ⟨by simp [hl], by simp [hfs], by simpa [linesSorted] using hs⟩
      | data dateOpt o h l c v =>
        cases dateOpt with
        | some dt =>
          dsimp only
          split
          all_goals
            exact ⟨by simp [hl], by simp [hfs], linesSorted_load_rtbar _ _ _ _ _ _ _ hl hs⟩
        | none =>
          dsimp only
          split
          · exact ⟨by simp [hl], by simp [hfs], by simpa [linesSorted] using hs⟩
          · exact ⟨by simp [hl], by simp, by simpa [linesSorted] using hs⟩
  case stLive =>
    dsimp only
    cases hsm : f.storedmsg with
    | some d => exact liveStep_inv _ (.data d) hl (by simp [hfs]) hs
    | none =>
      cases hq : f.qlive with
      | nil => exact ⟨hl, by simp [hfs], hs⟩
      | cons m rest => exact liveStep_inv _ m hl (by simp [hfs]) hs

/-- The bounded `_load` loop preserves monotonicity of the series. -/
lemma loadLoop_inv (n : Nat) (f : Feed) (hl : f.latethrough = false)
    (hf : f.state ≠ .stFrom) (hs : linesSorted f) :
    linesSorted (loadLoop n f).2 := by
  induction n generalizing f with
  | zero => exact hs
  | succ n ih =>
    unfold loadLoop
    cases hstep : loadStep f with
    | done r f2 =>
      have := loadStep_inv f hl hf hs
      rw [hstep] at this
      exact this.2.2
    | again f2 =>
      have := loadStep_inv f hl hf hs
      rw [hstep] at this
      exact ih f2 this.1 this.2.1 this.2.2

end Inv

/-- C1: for every sequence of bars accepted into the output series by the
feed (live tick, live real-time bar, or historical backfill message), the
accepted timestamps are strictly increasing.  A candidate whose timestamp
is less than or equal to the last accepted timestamp is rejected — the
assembler returns `false` and no lines are written — unless the
`latethrough` override is set, in which case it is accepted anyway; and
every `_load` run started outside the seed-replay state keeps the output
series strictly increasing when `latethrough` is unset. -/
theorem C1_timestamps_strictly_increasing :
    (∀ (f : Feed) (dt o h l c v d0 : Int), f.latethrough = false →
      lastdt f = some d0 → dt ≤ d0 → load_rtbar f dt o h l c v = (false, f)) ∧
    (∀ (f : Feed) (d : LiveData) (d0 : Int), f.latethrough = false →
      lastdt f = some d0 → d.datetime ≤ d0 → load_rtvolume f d = (false, f)) ∧
    (∀ (f : Feed) (dt o h l c v : Int), f.latethrough = true →
      (load_rtbar f dt o h l c v).1 = true) ∧
    (∀ (f : Feed) (d : LiveData), f.latethrough = true →
      (load_rtvolume f d).1 = true) ∧
    (∀ (fuel : Nat) (f : Feed), f.latethrough = false → f.state ≠ .stFrom →
      linesSorted f → linesSorted (load fuel f).2) := by
  refine ⟨?_, ?_, ?_, ?_, ?_⟩
  · intro f dt o h l c v d0 hl hld hle
    have hrej : lateReject f dt = true := by
      unfold lateReject
      rw [hld, hl]
      simp [hle]
    simp [load_rtbar, hrej]
  · intro f d d0 hl hld hle
    have hrej : lateReject f d.datetime = true := by
      unfold lateReject
      rw [hld, hl]
      simp [hle]
    simp [load_rtvolume, hrej]
  · intro f dt o h l c v hl
    have hrej : lateReject f dt = false := by
      unfold lateReject
      rw [hl]
      simp
    simp [load_rtbar, hrej]
  · intro f d hl
    have hrej : lateReject f d.datetime = false := by
      unfold lateReject
      rw [hl]
      simp
    simp [load_rtvolume, hrej]
  · intro fuel f hl hf hs
    unfold load
    split
    · exact loadLoop_inv fuel f hl hf hs
    · exact hs

/-- Witness for C1 at a concrete state: one delivered bar at timestamp 5,
a candidate at the same timestamp is rejected with no lines written. -/
theorem C1_witness :
    load_rtbar { feed0 with lines := [bar0 5] } 5 1 1 1 1 1 =
      (false, { feed0 with lines := [bar0 5] }) :=
  C1_timestamps_strictly_increasing.1 _ 5 1 1 1 1 1 5 rfl rfl (by decide)

/-- C7: in Live state, when the bounded-timeout wait on the live channel
expires with no message and no deferred message is stored, `_load` returns
the distinct "no data yet" value (`None`), which differs from both the
success value (`True`) and the failure value (`False`); nothing is
notified and the state does not change. -/
theorem C7_timeout_returns_no_data (f : Feed) (n : Nat)
    (hc : f.contract = true) (hst : f.state = .stLive)
    (hsm : f.storedmsg = none) (hq : f.qlive = []) :
    load (n + 1) f = (.noData, f) ∧
    (LoadResult.noData ≠ LoadResult.success) ∧
    (LoadResult.noData ≠ LoadResult.failure) := by
  have hstep : loadStep f = .done .noData f := by
    unfold loadStep
    rw [hst, hsm, hq]
  refine ⟨?_, by simp, by simp⟩
  unfold load
  rw [hc]
  simp only [if_true]
  unfold loadLoop
  rw [hstep]

/-- Witness for C7: the baseline feed with empty queues times out. -/
theorem C7_witness :
    load 4 feed0 = (.noData, feed0) ∧
    (LoadResult.noData ≠ LoadResult.success) ∧
    (LoadResult.noData ≠ LoadResult.failure) :=
  C7_timeout_returns_no_data feed0 3 rfl rfl rfl rfl

/-- C9: every tick accepted on the rtvolume path produces a bar whose
open, high, low and close all equal the tick price, whose volume is the
tick size, and whose open interest is zero. -/
theorem C9_tick_bar_shape (f : Feed) (d : LiveData)
    (hacc : (load_rtvolume f d).1 = true) :
    (load_rtvolume f d).2.lines =
      f.lines ++ [⟨d.datetime, d.price, d.price, d.price, d.price, d.size, 0⟩] := by
  by_cases h : lateReject f d.datetime = true
  · rw [load_rtvolume] at hacc
    simp [h] at hacc
  · have h' : lateReject f d.datetime = false := by simpa using h
    simp [load_rtvolume, h', appendBar]

/-- Witness for C9: a concrete accepted tick. -/
theorem C9_witness :
    (load_rtvolume feed0 (tickMsg 7 100 3)).2.lines =
      feed0.lines ++ [⟨7, 100, 100, 100, 100, 3, 0⟩] :=
  C9_tick_bar_shape feed0 (tickMsg 7 100 3) (by decide)

/-- C10: when no contract was resolved at start, every `_load` call
returns `False` immediately with the state untouched: no notification, no
channel read, no change to the state, the pending-backfill flag or the
deferred-message slot. -/
theorem C10_no_contract_fails (f : Feed) (fuel : Nat)
    (hc : f.contract = false) :
    load fuel f = (.failure, f) := by
  unfold load
  rw [hc]
  simp

/-- Witness for C10: the baseline feed without a contract. -/
theorem C10_witness :
    load 5 { feed0 with contract := false } =
      (.failure, { feed0 with contract := false }) :=
  C10_no_contract_fails _ 5 rfl


section MoreHelpers

variable (f : Feed)

@[simp] lemma put_notification_reconnectOk (n : Notif) :
    (put_notification f n).reconnectOk = f.reconnectOk := rfl

@[simp] lemma put_notification_backfill (n : Notif) :
    (put_notification f n).backfill = f.backfill := rfl

@[simp] lemma put_notification_statelivereconn (n : Notif) :
    (put_notification f n).statelivereconn = f.statelivereconn := rfl

@[simp] lemma put_notification_usertvol (n : Notif) :
    (put_notification f n).usertvol = f.usertvol := rfl

@[simp] lemma put_notification_fromdate (n : Notif) :
    (put_notification f n).fromdate = f.fromdate := rfl

@[simp] lemma put_notification_historical (n : Notif) :
    (put_notification f n).historical = f.historical := rfl

@[simp] lemma put_notification_histRequests (n : Notif) :
    (put_notification f n).histRequests = f.histRequests := rfl

@[simp] lemma put_notification_laststatus (n : Notif) :
    (put_notification f n).laststatus = some n := rfl

@[simp] lemma reqHistoricalDataEx_laststatus (a b : Option Int) :
    (reqHistoricalDataEx f a b).laststatus = f.laststatus := rfl

@[simp] lemma reqHistoricalDataEx_histRequests (a b : Option Int) :
    (reqHistoricalDataEx f a b).histRequests = f.histRequests ++ [(a, b)] := rfl

end MoreHelpers

/-- C8: in Live state a bare integer status code outside
`{-354, -1100, -1101, -1102}`, and in HistoricalBackfill state one outside
`{-354, -420}`, only produces an `Unknown(code)` notification: the loop
continues (`again`, never a terminal return), no bar is produced, and
nothing but the consumed queue entry and the notification record
changes. -/
theorem C8_unknown_codes_skipped (f : Feed) (c : Int)
    (restL : List LiveMsg) (restH : List HistMsg) :
    (f.state = .stLive → f.storedmsg = none → f.qlive = .code c :: restL →
      c ≠ -354 → c ≠ -1100 → c ≠ -1101 → c ≠ -1102 →
      loadStep f = .again (put_notification { f with qlive := restL } (.unknown c))) ∧
    (f.state = .stHistorback → f.qhist = .code c :: restH →
      c ≠ -354 → c ≠ -420 →
      loadStep f = .again (put_notification { f with qhist := restH } (.unknown c))) := by
  constructor
  · intro hst hsm hq h354 h1100 h1101 h1102
    unfold loadStep
    rw [hst, hsm, hq]
    unfold liveStep
    simp [h354, h1100, h1101, h1102]
  · intro hst hq h354 h420
    unfold loadStep
    rw [hst, hq]
    simp [h354, h420]

/-- Witness for C8: code `999` in Live state is surfaced as unknown and
skipped. -/
theorem C8_witness :
    loadStep { feed0 with qlive := [.code 999] } =
      .again (put_notification { feed0 with qlive := [] } (.unknown 999)) :=
  (C8_unknown_codes_skipped { feed0 with qlive := [.code 999] } 999 [] []).1
    rfl rfl rfl (by decide) (by decide) (by decide) (by decide)

/-- C6: the `-1102` (connection broken/restored, subscription preserved)
code is idempotent on the pending-backfill flag: with the flag already
set, processing it changes nothing but consuming the queue entry; and for
the subsequent deferred data message the `Delayed` status is emitted only
when the last status is not already `Delayed`, so it is never emitted
twice in a row. -/
theorem C6_code_neg1102_idempotent (f : Feed) (d : LiveData)
    (rest : List LiveMsg) :
    (f.state = .stLive → f.storedmsg = none → f.statelivereconn = true →
      f.qlive = .code (-1102) :: rest →
      loadStep f = .again { f with qlive := rest }) ∧
    (f.statelivereconn = true → f.laststatus = some .delayed →
      ((liveStep f (.data d)).feed).notifs = f.notifs) ∧
    (f.statelivereconn = true → f.laststatus ≠ some .delayed →
      ((liveStep f (.data d)).feed).notifs = f.notifs ++ [.delayed]) := by
  refine ⟨?_, ?_, ?_⟩
  · intro hst hsm hsr hq
    unfold loadStep
    rw [hst, hsm, hq]
    unfold liveStep
    simp [hsr]
  · intro hsr hls
    unfold liveStep
    simp [hsr, hls, reqHistoricalDataEx, put_notification]
  · intro hsr hls
    unfold liveStep
    simp [hsr, hls, reqHistoricalDataEx, put_notification]

/-- Witness for C6: a second `-1102` with the flag already set is a
no-op apart from consuming the message. -/
theorem C6_witness :
    loadStep { feed0 with statelivereconn := true, qlive := [.code (-1102)] } =
      .again { feed0 with statelivereconn := true, qlive := [] } :=
  (C6_code_neg1102_idempotent
      { feed0 with statelivereconn := true, qlive := [.code (-1102)] }
      (tickMsg 0 0 0) []).1 rfl rfl rfl rfl

/-- C3: a null message in Live state emits `ConnectionBroken` and
attempts reconnect-with-resubscribe.  If the reconnect fails, exactly one
terminal `Disconnected` is appended, the call returns `False`, and no bar
is written; if it succeeds, the pending-backfill flag is set to the
`backfill` parameter and the loop continues in Live state. -/
theorem C3_null_message_reconnect (f : Feed) (rest : List LiveMsg) (n : Nat)
    (hc : f.contract = true) (hst : f.state = .stLive)
    (hsm : f.storedmsg = none) (hq : f.qlive = .null :: rest) :
    (f.reconnectOk = false →
      ∃ f2, load (n + 1) f = (.failure, f2) ∧
        f2.notifs = f.notifs ++ [.connbroken, .disconnected] ∧
        f2.lines = f.lines ∧ f2.qlive = rest) ∧
    (f.reconnectOk = true →
      ∃ f2, loadStep f = .again f2 ∧
        f2.notifs = f.notifs ++ [.connbroken] ∧
        f2.statelivereconn = f.backfill ∧ f2.state = .stLive ∧
        f2.lines = f.lines) := by
  have hstep : loadStep f = liveStep { f with qlive := rest } .null := by
    unfold loadStep
    rw [hst, hsm, hq]
  constructor
  · intro hrc
    refine ⟨put_notification
        (put_notification { f with qlive := rest } .connbroken) .disconnected,
      ?_, ?_, ?_, ?_⟩
    · unfold load
      rw [hc]
      simp only [if_true]
      unfold loadLoop
      rw [hstep]
      unfold liveStep
      simp [hrc, hc]
    · simp
    · simp
    · simp [put_notification]
  · intro hrc
    refine ⟨{ put_notification { f with qlive := rest } .connbroken with
        statelivereconn := f.backfill }, ?_, ?_, ?_, ?_, ?_⟩
    · rw [hstep]
      unfold liveStep
      simp [hrc, put_notification]
    · simp [put_notification]
    · simp
    · simp [put_notification, hst]
    · simp [put_notification]

/-- Witness for C3: failed reconnect after a null message on a concrete
feed. -/
theorem C3_witness :
    ∃ f2, load 4 { feed0 with reconnectOk := false, qlive := [.null] } =
        (.failure, f2) ∧
      f2.notifs = [Notif.connbroken, Notif.disconnected] ∧
      f2.lines = ([] : List BTBar) ∧ f2.qlive = [] :=
  (C3_null_message_reconnect
      { feed0 with reconnectOk := false, qlive := [.null] } [] 3
      rfl rfl rfl rfl).1 rfl


/-- In the live handler, processing a structured data message never
touches the live queue: no new channel read happens while the deferred
message is reconsidered. -/
lemma liveStep_data_qlive (f : Feed) (d : LiveData) :
    ((liveStep f (.data d)).feed).qlive = f.qlive := by
  unfold liveStep
  dsimp only
  repeat' split
  all_goals simp [reqHistoricalDataEx, put_notification]

/-- C4: the deferred-message slot across a backfill.  (i) A dated
end-of-stream on the historical channel with `historical=false` returns
the machine to Live with the deferred slot intact; (ii) in Live state the
single message stored under the no-id sentinel is re-read before any new
pull from the live channel (the live queue is untouched); (iii) the slot
holds at most one message: storing overwrites whatever was there, it never
queues. -/
theorem C4_deferred_message_slot (f : Feed) (d : LiveData)
    (o h l c v : Int) (restH : List HistMsg) :
    (f.state = .stHistorback → f.historical = false →
      f.qhist = .data none o h l c v :: restH →
      loadStep f = .again { f with qhist := restH, state := .stLive }) ∧
    (f.state = .stLive → f.storedmsg = some d →
      loadStep f = liveStep { f with storedmsg := none } (.data d) ∧
      ((loadStep f).feed).qlive = f.qlive) ∧
    (f.statelivereconn = true →
      ((liveStep f (.data d)).feed).storedmsg = some d) := by
  refine ⟨?_, ?_, ?_⟩
  · intro hst hh hq
    unfold loadStep
    rw [hst, hq]
    simp [hh]
  · intro hst hsm
    have hstep : loadStep f = liveStep { f with storedmsg := none } (.data d) := by
      unfold loadStep
      rw [hst, hsm]
    refine ⟨hstep, ?_⟩
    rw [hstep, liveStep_data_qlive]
  · intro hsr
    unfold liveStep
    simp [hsr, reqHistoricalDataEx, put_notification]
    split <;> rfl

/-- Witness for C4: a concrete end-of-stream sentinel returns to Live and
keeps the deferred tick. -/
theorem C4_witness :
    loadStep { feed0 with
        state := .stHistorback, storedmsg := some (tickMsg 3 1 1),
        qhist := [.data none 0 0 0 0 0] } =
      .again { feed0 with
        state := .stLive, storedmsg := some (tickMsg 3 1 1), qhist := [] } :=
  (C4_deferred_message_slot
      { feed0 with
        state := .stHistorback, storedmsg := some (tickMsg 3 1 1),
        qhist := [.data none 0 0 0 0 0] }
      (tickMsg 3 1 1) 0 0 0 0 0 []).1 rfl rfl rfl


/-- Whether an iteration outcome continues the loop (never a return). -/
def Step.continues : Step → Bool
  | .done _ _ => false
  | .again _ => true

/-- C2 scenario: two bars (timestamps 1 and 2) already delivered, no
`fromdate` floor, pending backfill, deferred tick dated 10. -/
def c2feedA : Feed :=
  { feed0 with
    statelivereconn := true, lines := [bar0 1, bar0 2],
    qlive := [.data (tickMsg 10 100 7)] }

/-- C2 scenario: empty history, `fromdate` floor set (2024-01-01 encoded
as the timestamp 20240101), pending backfill, deferred tick dated 10. -/
def c2feedB : Feed :=
  { feed0 with
    statelivereconn := true, fromdate := some 20240101,
    qlive := [.data (tickMsg 10 100 7)] }

/-- C2 scenario: empty history, no floor, pending backfill, deferred tick
dated 10. -/
def c2feedC : Feed :=
  { feed0 with statelivereconn := true, qlive := [.data (tickMsg 10 100 7)] }

/-- C2: a data message arriving in Live state with the pending-backfill
flag set triggers a historical request whose window is: end = the
timestamp carried by the message (`datetime` in tick mode, `time` in
real-time-bar mode); begin = the last bar's timestamp when the series
holds more than one bar (`len(self) > 1`, counting the forwarded slot),
else the `fromdate` floor when set, else unbounded (`none`).  The three
literal scenarios: history `[t1, t2]` with no floor gives begin `t2`;
empty history with floor 2024-01-01 gives that floor; empty history with
no floor gives `none`. -/
theorem C2_backfill_window (f : Feed) (d : LiveData) (rest : List LiveMsg)
    (hst : f.state = .stLive) (hsr : f.statelivereconn = true)
    (hsm : f.storedmsg = none) (hq : f.qlive = .data d :: rest) :
    ((loadStep f).continues = true ∧
     (loadStep f).feed.state = .stHistorback ∧
     (loadStep f).feed.histRequests = f.histRequests ++
       [(some (if f.usertvol then d.datetime else d.time),
         if numBars f > 1 then lastdt f
         else match f.fromdate with
              | some fd => some fd
              | none => none)]) ∧
    ((loadStep c2feedA).feed.histRequests = [(some 10, some 2)]) ∧
    ((loadStep c2feedB).feed.histRequests = [(some 10, some 20240101)]) ∧
    ((loadStep c2feedC).feed.histRequests = [(some 10, none)]) := by
  refine ⟨?_, by decide, by decide, by decide⟩
  have hstep : loadStep f = liveStep { f with qlive := rest } (.data d) := by
    unfold loadStep
    rw [hst, hsm, hq]
  rw [hstep]
  unfold liveStep
  simp only [hsr, Bool.true_eq_false, if_false]
  split <;>
    simp [Step.continues, backfillBegin, numBars, lastdt, reqHistoricalDataEx,
      put_notification]

/-- Witness for C2: the first scenario feed, window end 10, begin 2. -/
theorem C2_witness :
    (loadStep c2feedA).continues = true ∧
    (loadStep c2feedA).feed.state = .stHistorback ∧
    (loadStep c2feedA).feed.histRequests = [(some 10, some 2)] := by
  have h := (C2_backfill_window c2feedA (tickMsg 10 100 7) []
    rfl rfl rfl rfl).1
  exact ⟨h.1, h.2.1, by rw [h.2.2]; decide⟩


/-- C5 initial feed: historical-only download, three ascending dated bars
followed by the end-of-stream sentinel on the gateway's historical
channel. -/
def c5feed (t1 t2 t3 : Int) : Feed :=
  { feed0 with
    state := .stStart, historical := true,
    histSource := [.data (some t1) 1 1 1 1 1, .data (some t2) 2 2 2 2 2,
                   .data (some t3) 3 3 3 3 3, .data none 0 0 0 0 0] }

/-- The feed state after `n` successive `_load` calls (each with ample
fuel) on the C5 scenario. -/
def c5state (t1 t2 t3 : Int) : Nat → Feed
  | 0 => c5feed t1 t2 t3
  | n + 1 => (load 9 (c5state t1 t2 t3 n)).2

/-- The result of the `(n+1)`-st `_load` call on the C5 scenario. -/
def c5result (t1 t2 t3 : Int) (n : Nat) : LoadResult :=
  (load 9 (c5state t1 t2 t3 n)).1

/-- C5: a feed started with `historical=True` whose historical channel
yields three dated bars with strictly ascending dates and then the
end-of-stream sentinel emits exactly three bars in ascending timestamp
order over the first three `_load` calls, and the fourth call emits
exactly one terminal `Disconnected` notification and returns `False`,
with no transition back to Live and no further bars. -/
theorem C5_historical_only_run (t1 t2 t3 : Int) (h12 : t1 < t2)
    (h23 : t2 < t3) :
    c5result t1 t2 t3 0 = .success ∧
    (c5state t1 t2 t3 1).lines.map BTBar.dt = [t1] ∧
    c5result t1 t2 t3 1 = .success ∧
    (c5state t1 t2 t3 2).lines.map BTBar.dt = [t1, t2] ∧
    c5result t1 t2 t3 2 = .success ∧
    (c5state t1 t2 t3 3).lines.map BTBar.dt = [t1, t2, t3] ∧
    linesSorted (c5state t1 t2 t3 3) ∧
    c5result t1 t2 t3 3 = .failure ∧
    (c5state t1 t2 t3 4).lines = (c5state t1 t2 t3 3).lines ∧
    (c5state t1 t2 t3 4).notifs = [.delayed, .disconnected] ∧
    (c5state t1 t2 t3 4).state = .stHistorback := by
  have d21 : decide (t2 ≤ t1) = false := decide_eq_false (not_le.mpr h12)
  have d32 : decide (t3 ≤ t2) = false := decide_eq_false (not_le.mpr h23)
  refine ⟨?_, ?_, ?_, ?_, ?_, ?_, ?_, ?_, ?_, ?_, ?_⟩ <;>
    simp [c5result, c5state, c5feed, feed0, load, loadLoop, loadStep,
      liveStep, put_notification, reqHistoricalDataEx, load_rtbar,
      load_rtvolume, lateReject, lastdt, appendBar, linesSorted,
      d21, d32, h12, h23]

/-- Witness for C5 at the concrete dates 1 < 2 < 3. -/
theorem C5_witness :
    c5result 1 2 3 0 = .success ∧
    (c5state 1 2 3 1).lines.map BTBar.dt = [1] ∧
    c5result 1 2 3 1 = .success ∧
    (c5state 1 2 3 2).lines.map BTBar.dt = [1, 2] ∧
    c5result 1 2 3 2 = .success ∧
    (c5state 1 2 3 3).lines.map BTBar.dt = [1, 2, 3] ∧
    linesSorted (c5state 1 2 3 3) ∧
    c5result 1 2 3 3 = .failure ∧
    (c5state 1 2 3 4).lines = (c5state 1 2 3 3).lines ∧
    (c5state 1 2 3 4).notifs = [.delayed, .disconnected] ∧
    (c5state 1 2 3 4).state = .stHistorback :=
  C5_historical_only_run 1 2 3 (by decide) (by decide)

end IBFeed
